import Mathlib

set_option maxRecDepth 100000

/-!
Shallow embedding of the RAG chatbot in `src/app.py` (a single-file
Streamlit application answering questions over uploaded PDFs).

Modelling conventions:
* `Message` mirrors the langchain role-tagged message classes
  (`SystemMessage` / `HumanMessage` / `AIMessage`).
* Python strings become Lean `String`s; `str.lower` is modelled for the
  ASCII and Latin-1 letter ranges (the alphabet all keywords and test
  questions live in); other code points are left unchanged.
* Session state (`st.session_state`) becomes an explicit `Session` record
  threaded through the handlers.
* External collaborators (the embedding distance, the chat model) are
  parameters: the distance function feeds the similarity search and the
  generator is a function from the message history to `Except Unit String`
  (`.error` modelling a raised exception such as a timeout).
-/

/-- Role-tagged chat message, mirroring the langchain message classes
used by `app.py`. -/
inductive Message where
  | SystemMessage (content : String)
  | HumanMessage (content : String)
  | AIMessage (content : String)
deriving DecidableEq, Repr

/-- `isinstance(m, SystemMessage)` -/
def isSystemMessage : Message → Bool
  | .SystemMessage _ => true
  | _ => false

/-- Python `str.lower` on a single character, for the ASCII range and the
Latin-1 supplement uppercase letters (À..Þ except ×); identity elsewhere. -/
def pyLowerChar (c : Char) : Char :=
  let n := c.toNat
  if 65 ≤ n ∧ n ≤ 90 then Char.ofNat (n + 32)
  else if 192 ≤ n ∧ n ≤ 222 ∧ n ≠ 215 then Char.ofNat (n + 32)
  else c

/-- Python `str.lower` (on the modelled alphabet). -/
def pyLower (s : String) : String := String.mk (s.data.map pyLowerChar)

/-- Does `sub` occur as a contiguous sublist of `l`? -/
def contemLista (sub : List Char) : List Char → Bool
  | [] => sub.isPrefixOf ([] : List Char)
  | c :: rest => sub.isPrefixOf (c :: rest) || contemLista sub rest

/-- The Python substring test `sub in s`. -/
def pyIn (sub s : String) : Bool := contemLista sub.toList s.toList

/-- The fixed keyword set of `detectar_pedido_resumo` (app.py lines 61-64). -/
def palavras_chave_resumo : List String :=
  ["resumo", "resuma", "resumir", "sintetizar", "síntese",
   "sumarizar", "sumário", "overview", "principais pontos"]

/-- `detectar_pedido_resumo` (app.py lines 59-65): case-insensitive keyword
substring test deciding whether a question asks for a summary. -/
def detectar_pedido_resumo (pergunta : String) : Bool :=
  palavras_chave_resumo.any (fun palavra => pyIn palavra (pyLower pergunta))


/-! ## The Chunker: langchain `CharacterTextSplitter` with
`separator="\n"`, `chunk_size=500`, `chunk_overlap=200`, `length_function=len`
(app.py lines 42-50). -/

/-- Python `len` of a string (number of characters), as an `Int` because the
merge loop does signed arithmetic on it. -/
def pyLen (s : String) : Int := s.data.length

/-- Python whitespace for `str.strip`: space, tab, newline, carriage return,
vertical tab, form feed (the ASCII set; the inputs here are ASCII/Latin-1). -/
def pyWhitespace (c : Char) : Bool :=
  c == ' ' || c == '\t' || c == '\n' || c == '\r' || c.toNat == 11 || c.toNat == 12

/-- Python `str.strip()`. -/
def pyStrip (s : String) : String :=
  String.mk (((s.data.dropWhile pyWhitespace).reverse.dropWhile pyWhitespace).reverse)

/-- Python `sep.join(docs)`. -/
def pyJoin (sep : String) : List String → String
  | [] => ""
  | [d] => d
  | d :: rest => d ++ sep ++ pyJoin sep rest

/-- `re.split(sep, text)` for a single-character literal separator, on the
character list. `""` splits to `[[]]`, exactly as in Python. -/
def pySplitChar (sep : Char) : List Char → List (List Char)
  | [] => [[]]
  | c :: rest =>
      let r := pySplitChar sep rest
      if c = sep then [] :: r
      else
        match r with
        | [] => [[c]]
        | h :: t => (c :: h) :: t

/-- langchain `_split_text_with_regex(text, "\n", keep_separator=False)`:
split on the separator, then drop empty pieces. -/
def split_text_with_regex (text : String) : List String :=
  ((pySplitChar '\n' text.data).map String.mk).filter (fun s => s ≠ "")

/-- langchain `TextSplitter._join_docs(docs, separator)`: join, strip
whitespace, and drop the chunk entirely when it strips to empty. -/
def join_docs (docs : List String) (separator : String) : Option String :=
  let text := pyStrip (pyJoin separator docs)
  if text = "" then none else some text

/-- The `while` loop inside langchain `TextSplitter._merge_splits` that pops
splits off the front of `current_doc` until the running total is back under
the overlap budget (and the incoming split of length `dLen` would fit).
Structurally recursive on `current_doc`; when `current_doc` is empty the
running total is `0` (an invariant of the caller) and the Python loop
condition is false, so returning immediately agrees with the source. -/
def poda_sobreposicao (chunk_size chunk_overlap separator_len dLen : Int) :
    List String → Int → List String × Int
  | [], total => ([], total)
  | c :: rest, total =>
      if total > chunk_overlap ∨
          (total + dLen + separator_len > chunk_size ∧ total > 0) then
        poda_sobreposicao chunk_size chunk_overlap separator_len dLen rest
          (total - (pyLen c + if rest.length > 0 then separator_len else 0))
      else (c :: rest, total)

/-- Loop state of `_merge_splits`: emitted chunks, the pending window of
splits, and the running length total. -/
structure EstadoMerge where
  docs : List String
  current_doc : List String
  total : Int
deriving DecidableEq, Repr

/-- One iteration of the `for d in splits` loop of `_merge_splits`. -/
def merge_step (chunk_size chunk_overlap separator_len : Int) (separator : String)
    (st : EstadoMerge) (d : String) : EstadoMerge :=
  let dLen := pyLen d
  let st1 :=
    if st.total + dLen + (if st.current_doc.length > 0 then separator_len else 0)
        > chunk_size then
      if st.current_doc.length > 0 then
        let docs1 :=
          match join_docs st.current_doc separator with
          | none => st.docs
          | some doc => st.docs ++ [doc]
        let pt := poda_sobreposicao chunk_size chunk_overlap separator_len dLen
          st.current_doc st.total
        EstadoMerge.mk docs1 pt.1 pt.2
      else st
    else st
  let cur2 := st1.current_doc ++ [d]
  { docs := st1.docs, current_doc := cur2,
    total := st1.total + dLen + (if cur2.length > 1 then separator_len else 0) }

/-- langchain `TextSplitter._merge_splits(splits, separator)`. -/
def merge_splits (chunk_size chunk_overlap separator_len : Int) (separator : String)
    (splits : List String) : List String :=
  let fin := splits.foldl (merge_step chunk_size chunk_overlap separator_len separator)
    (EstadoMerge.mk [] [] 0)
  match join_docs fin.current_doc separator with
  | none => fin.docs
  | some doc => fin.docs ++ [doc]

/-- `divisor_texto.split_text(documento)` with the configuration of app.py
lines 42-47: separator `"\n"`, chunk size 500, overlap 200, length = `len`. -/
def split_text (text : String) : List String :=
  merge_splits 500 200 1 "\n" (split_text_with_regex text)


/-! ## Prompt composers (app.py lines 67-113). -/

/-- `montar_prompt_resumo(texto_completo, instrucoes_usuario)` (app.py
lines 67-89): the summary template with the user instructions and the full
document text substituted in. -/
def montar_prompt_resumo (texto_completo instrucoes_usuario : String) : String :=
  "\n    Crie um resumo do documento fornecido seguindo as instruções específicas do usuário.\n\n    ### Instruções do Usuário:\n    "
    ++ instrucoes_usuario
    ++ "\n\n    ### Diretrizes Gerais (caso não conflitem com as instruções do usuário):\n    1. Manter a sequência lógica do documento original\n    2. Garantir que as informações mais relevantes sejam incluídas\n    3. Manter a clareza e coesão do texto\n\n    ### Documento:\n    "
    ++ texto_completo
    ++ "\n\n    Por favor, gere um resumo seguindo as instruções acima.\n    "

/-- `montar_prompt_rag(fragmentos, pergunta)` (app.py lines 91-113): the
lookup template with the numbered retrieved fragments (1-based) and the
question substituted in. Fragments are modelled by their `page_content`. -/
def montar_prompt_rag (fragmentos : List String) (pergunta : String) : String :=
  let contexto := pyJoin "\n"
    (fragmentos.enum.map (fun p => toString (p.1 + 1) ++ ". " ++ p.2 ++ "\n"))
  "\n    Use os trechos fornecidos para responder à pergunta do usuário de forma clara e concisa.\n    Se necessário, complemente a resposta utilizando o histórico do chat.\n    Se não souber a resposta com base nos trechos fornecidos e no histórico do chat, diga que não sabe, sem tentar adivinhar ou inventar informações.\n    Se possível, seja direto e objetivo ao responder.\n\n    ### Trechos:\n    "
    ++ contexto
    ++ "\n\n    ### Pergunta:\n    "
    ++ pergunta
    ++ "\n    "

/-! ## Retrieval (the FAISS collaborator) and session state. -/

/-- Model of the FAISS `similarity_search(pergunta, k)` collaborator on the
vector base of the session: order the indexed chunks by embedding distance to the
query (stable, so ties keep original chunk order) and return the first `k`.
The embedding geometry is abstracted by the `dist` parameter. -/
def similarity_search (dist : String → String → Nat) (base : List String)
    (pergunta : String) (k : Nat) : List String :=
  (base.mergeSort (fun a b => Nat.ble (dist pergunta a) (dist pergunta b))).take k

/-- `st.session_state` as initialised in `main` (app.py lines 117-128). -/
structure Session where
  historico_chat : List Message
  base_vetores : Option (List String)
  texto_completo : Option String
  prompt_sistema_desabilitado : Bool
deriving DecidableEq, Repr

/-- The fresh session created at session start (app.py lines 118-128). -/
def sessaoInicial : Session :=
  { historico_chat := [], base_vetores := none, texto_completo := none,
    prompt_sistema_desabilitado := false }

/-- The greeting appended on every "Processar PDFs" click (app.py line 167). -/
def saudacao : String := "Olá, sou um bot. Como posso ajudar?"

/-- `obter_base_vetores_dos_pdfs` (app.py lines 36-57) after the external
calls succeeded with extracted text `documento`: chunk it and build the
vector base (modelled as the chunk list, in index order), also returning the
full text. -/
def obter_base_vetores_dos_pdfs (documento : String) : List String × String :=
  (split_text documento, documento)

/-- Python `str.format` interpolation of a possibly-`None` session value
(`None` renders as the string `"None"`). -/
def pyOptStr : Option String → String
  | none => "None"
  | some t => t

/-- The "Processar PDFs" click handler (app.py lines 156-169). `resultado`
is the outcome of the external work inside `obter_base_vetores_dos_pdfs`
(PDF parsing, embeddings, FAISS): `.ok documento` when extraction and index
construction succeed, `.error ()` when any of them raises — in which case
control leaves the handler before the assignment on line 169. -/
def processar_pdfs (prompt_sistema : String) (resultado : Except Unit String)
    (s : Session) : Session :=
  let s1 :=
    if prompt_sistema ≠ "" ∧ s.historico_chat.any isSystemMessage = false then
      { s with historico_chat := Message.SystemMessage prompt_sistema :: s.historico_chat,
               prompt_sistema_desabilitado := true }
    else s
  let s2 := { s1 with historico_chat := s1.historico_chat ++ [Message.AIMessage saudacao] }
  match resultado with
  | .error _ => s2
  | .ok documento =>
      let r := obter_base_vetores_dos_pdfs documento
      { s2 with base_vetores := some r.1, texto_completo := some r.2 }

/-- Observable outcome of one pass through the question branch of `main`
(app.py lines 174-196): the updated session, whether `chat.invoke` ran, the
chunks obtained from `similarity_search` during the turn (empty when the
summary branch skipped retrieval), and the assembled prompt, if any. -/
structure ResultadoTurno where
  sessao : Session
  gerador_invocado : Bool
  documentos_relevantes : List String
  prompt_montado : Option String
deriving DecidableEq, Repr

/-- The question-handling branch of `main` (app.py lines 174-196).
`dist` abstracts the embedding distance used by the FAISS collaborator and
`gen` abstracts `chat.invoke` (`.error ()` models a raised exception such as
a timeout, which propagates out of the handler before the `pop()` on
line 194). `pergunta` is the value of `st.chat_input` (`none` = no input). -/
def processar_turno (dist : String → String → Nat)
    (gen : List Message → Except Unit String)
    (s : Session) (pergunta : Option String) : ResultadoTurno :=
  match s.base_vetores with
  | none => ⟨s, false, [], none⟩
  | some base =>
    match pergunta with
    | none => ⟨s, false, [], none⟩
    | some p =>
      if p = "" then ⟨s, false, [], none⟩
      else
        let escolha :=
          if detectar_pedido_resumo p then
            (([] : List String), montar_prompt_resumo (pyOptStr s.texto_completo) p)
          else
            let documentos_relevantes := similarity_search dist base p 3
            (documentos_relevantes, montar_prompt_rag documentos_relevantes p)
        let prompt := escolha.2
        let hist1 := s.historico_chat ++ [Message.HumanMessage prompt]
        match gen hist1 with
        | .error _ =>
            ⟨{ s with historico_chat := hist1 }, true, escolha.1, some prompt⟩
        | .ok resposta =>
            ⟨{ s with historico_chat :=
                 hist1.dropLast ++ [Message.HumanMessage p, Message.AIMessage resposta] },
              true, escolha.1, some prompt⟩

/-- The prompt assembled during a question turn (app.py lines 179-184),
given the vector base `base` of the session. -/
def prompt_turno (dist : String → String → Nat) (s : Session) (base : List String)
    (p : String) : String :=
  if detectar_pedido_resumo p then montar_prompt_resumo (pyOptStr s.texto_completo) p
  else montar_prompt_rag (similarity_search dist base p 3) p

/-- The chunks retrieved during a question turn: the summary branch performs
no retrieval at all (app.py lines 180-183). -/
def docs_turno (dist : String → String → Nat) (base : List String) (p : String) :
    List String :=
  if detectar_pedido_resumo p then [] else similarity_search dist base p 3

/-- Number of greeting messages (`AIMessage` with the fixed greeting text)
in a history. -/
def contaSaudacoes (hist : List Message) : Nat :=
  hist.countP (fun m => decide (m = Message.AIMessage saudacao))

/-- `n` successful "Processar PDFs" runs (empty persona, empty document)
starting from the fresh session. -/
def ingestoes : Nat → Session
  | 0 => sessaoInicial
  | n + 1 => processar_pdfs "" (Except.ok "") (ingestoes n)

/-- A user-visible action of the app: a "Processar PDFs" click or a chat
input pass. -/
inductive Acao where
  | processar (prompt_sistema : String) (resultado : Except Unit String)
  | turno (gen : List Message → Except Unit String) (pergunta : Option String)

/-- Run one action against the session. -/
def executar (dist : String → String → Nat) (s : Session) : Acao → Session
  | .processar p r => processar_pdfs p r s
  | .turno gen q => (processar_turno dist gen s q).sessao

/-- Run a sequence of actions against the session. -/
def executarLista (dist : String → String → Nat) (s : Session) : List Acao → Session
  | [] => s
  | a :: rest => executarLista dist (executar dist s a) rest

/-- No `SystemMessage` occurs after the head of the history. -/
def semSistemaNaCauda (hist : List Message) : Prop :=
  ∀ m ∈ hist.tail, isSystemMessage m = false

/-- Length of `pyJoin "\n" cur` computed arithmetically: the `total`
accumulator of `_merge_splits` tracks exactly this quantity. -/
def totalJuntado : List String → Int
  | [] => 0
  | [d] => pyLen d
  | d :: rest => pyLen d + 1 + totalJuntado rest

/-- A degenerate embedding distance (all chunks equidistant). -/
def dist0 : String → String → Nat := fun _ _ => 0

/-- A stubbed generator that always answers. -/
def genOk : List Message → Except Unit String := fun _ => Except.ok "Paris."

/-- A generator whose call raises (e.g. a timeout). -/
def genFalha : List Message → Except Unit String := fun _ => Except.error ()

/-- A session holding a one-chunk index. -/
def sessaoDemo : Session :=
  { historico_chat := [], base_vetores := some ["Paris é a capital da França."],
    texto_completo := some "Paris é a capital da França.",
    prompt_sistema_desabilitado := false }

/-- An eleven-chunk vector base. -/
def base11 : List String :=
  ["c01", "c02", "c03", "c04", "c05", "c06", "c07", "c08", "c09", "c10", "c11"]

/-- A session holding the eleven-chunk index. -/
def sessao11 : Session :=
  { historico_chat := [], base_vetores := some base11,
    texto_completo := some "TEXTO COMPLETO DO DOCUMENTO",
    prompt_sistema_desabilitado := false }

/-- Invariant of the `_merge_splits` loop under the configuration of the app
(size 500, overlap 200, separator length 1): the running total is the
joined length of the pending window, the window never exceeds the chunk
size, its entries are nonempty, and every emitted chunk is within bound. -/
def InvMerge (st : EstadoMerge) : Prop :=
  st.total = totalJuntado st.current_doc ∧ st.total ≤ 500 ∧
  (∀ c ∈ st.current_doc, c ≠ "") ∧ (∀ doc ∈ st.docs, pyLen doc ≤ 500)

/-! ## Theorems -/

/-- Characterisation of the question branch for a non-empty question when an
index is loaded: the prompt is assembled, appended, and on success replaced
by the literal question and the answer; on failure the handler is left right
after the append. -/
theorem processar_turno_carac (dist : String → String → Nat)
    (gen : List Message → Except Unit String) (s : Session) (base : List String)
    (p : String) (hbase : s.base_vetores = some base) (hp : ¬ p = "") :
    processar_turno dist gen s (some p) =
      match gen (s.historico_chat ++ [Message.HumanMessage (prompt_turno dist s base p)]) with
      | .error _ =>
          ⟨{ s with historico_chat :=
               s.historico_chat ++ [Message.HumanMessage (prompt_turno dist s base p)] },
            true, docs_turno dist base p, some (prompt_turno dist s base p)⟩
      | .ok resposta =>
          ⟨{ s with historico_chat :=
               s.historico_chat ++ [Message.HumanMessage p, Message.AIMessage resposta] },
            true, docs_turno dist base p, some (prompt_turno dist s base p)⟩ := by
  unfold processar_turno
  rw [hbase]
  simp only [hp, if_false]
  cases hdet : detectar_pedido_resumo p <;>
    simp only [prompt_turno, docs_turno, hdet, if_true, if_false, Bool.false_eq_true] <;>
    cases hg : gen (s.historico_chat ++ [Message.HumanMessage _]) <;>
    simp [List.dropLast_concat]

/-- C1: after a successful turn with question `p` and answer `resposta`, the
last two entries of the history are exactly `HumanMessage p` then
`AIMessage resposta` (the history is the old one plus exactly these two),
and the assembled prompt appended to drive generation is retracted: every
persisted message is either an old one, the literal question, or the literal
answer. -/
theorem turno_sucesso_persiste_pergunta_e_resposta
    (dist : String → String → Nat) (gen : List Message → Except Unit String)
    (s : Session) (base : List String) (p resposta : String)
    (hbase : s.base_vetores = some base) (hp : ¬ p = "")
    (hgen : gen (s.historico_chat ++ [Message.HumanMessage (prompt_turno dist s base p)])
      = Except.ok resposta) :
    (processar_turno dist gen s (some p)).sessao.historico_chat
        = s.historico_chat ++ [Message.HumanMessage p, Message.AIMessage resposta] ∧
    ∀ m ∈ (processar_turno dist gen s (some p)).sessao.historico_chat,
      m ∈ s.historico_chat ∨ m = Message.HumanMessage p ∨ m = Message.AIMessage resposta := by
  have hc := processar_turno_carac dist gen s base p hbase hp
  rw [hgen] at hc
  rw [hc]
  refine ⟨rfl, ?_⟩
  intro m hm
  rcases List.mem_append.mp hm with h1 | h2
  · exact Or.inl h1
  · simp only [List.mem_cons, List.mem_singleton] at h2
    tauto

/-- C1 witness: a concrete successful turn. -/
theorem turno_sucesso_persiste_pergunta_e_resposta_witness :
    (processar_turno dist0 genOk sessaoDemo (some "Qual é a capital da França?")).sessao.historico_chat
        = sessaoDemo.historico_chat ++
            [Message.HumanMessage "Qual é a capital da França?", Message.AIMessage "Paris."] ∧
    ∀ m ∈ (processar_turno dist0 genOk sessaoDemo (some "Qual é a capital da França?")).sessao.historico_chat,
      m ∈ sessaoDemo.historico_chat ∨ m = Message.HumanMessage "Qual é a capital da França?" ∨
        m = Message.AIMessage "Paris." :=
  turno_sucesso_persiste_pergunta_e_resposta dist0 genOk sessaoDemo
    ["Paris é a capital da França."] "Qual é a capital da França?" "Paris."
    rfl (by decide) rfl

/-- C2 counterexample: with a generator whose call raises, the history after
the turn is NOT left as it was — the transient prompt message is not
retracted (the `pop()` on app.py line 194 is never reached). -/
theorem falha_gerador_historico_alterado_contraexemplo :
    (processar_turno dist0 genFalha sessaoDemo (some "Qual é a capital?")).sessao.historico_chat
      ≠ sessaoDemo.historico_chat := by decide

/-- C2 amended: if the generator call raises, the transient prompt message
is NOT retracted — the failed turn leaves the history equal to the previous
history plus exactly the one rendered-prompt `HumanMessage`, and no
question/answer entries are appended. -/
theorem falha_gerador_mantem_prompt_transitorio
    (dist : String → String → Nat) (gen : List Message → Except Unit String)
    (s : Session) (base : List String) (p : String) (e : Unit)
    (hbase : s.base_vetores = some base) (hp : ¬ p = "")
    (hgen : gen (s.historico_chat ++ [Message.HumanMessage (prompt_turno dist s base p)])
      = Except.error e) :
    (processar_turno dist gen s (some p)).sessao.historico_chat
      = s.historico_chat ++ [Message.HumanMessage (prompt_turno dist s base p)] := by
  have hc := processar_turno_carac dist gen s base p hbase hp
  rw [hgen] at hc
  rw [hc]

/-- C2 amended witness: a concrete failing turn. -/
theorem falha_gerador_mantem_prompt_transitorio_witness :
    (processar_turno dist0 genFalha sessaoDemo (some "Qual é a capital?")).sessao.historico_chat
      = sessaoDemo.historico_chat ++
          [Message.HumanMessage
            (prompt_turno dist0 sessaoDemo ["Paris é a capital da França."] "Qual é a capital?")] :=
  falha_gerador_mantem_prompt_transitorio dist0 genFalha sessaoDemo
    ["Paris é a capital da França."] "Qual é a capital?" () rfl (by decide) rfl

/-- C4 counterexample: a whitespace-only question (`" "`) is NOT ignored —
the generator is invoked and the history changes. -/
theorem espacos_processados_contraexemplo :
    (processar_turno dist0 genOk sessaoDemo (some " ")).gerador_invocado = true ∧
    (processar_turno dist0 genOk sessaoDemo (some " ")).sessao.historico_chat
      ≠ sessaoDemo.historico_chat := by decide

/-- C4 amended: only a missing input or the literal empty string is ignored
(guard `pergunta is not None and pergunta != ''`, app.py line 178): for
those the generator is not invoked and the session is unchanged; a
whitespace-only question is processed like any other. -/
theorem apenas_entrada_vazia_ignorada (dist : String → String → Nat)
    (gen : List Message → Except Unit String) (s : Session) :
    processar_turno dist gen s none = ⟨s, false, [], none⟩ ∧
    processar_turno dist gen s (some "") = ⟨s, false, [], none⟩ := by
  cases hb : s.base_vetores <;> simp [processar_turno, hb]

/-- C3 counterexample: with an index of 11 chunks, a summary question
retrieves 0 chunks (not 10): the summary branch bypasses retrieval and
feeds the stored full text to the summary template. -/
theorem resumo_nao_recupera_dez_contraexemplo :
    sessao11.base_vetores = some base11 ∧ base11.length = 11 ∧
    (processar_turno dist0 genOk sessao11 (some "resumo")).documentos_relevantes.length = 0 ∧
    (processar_turno dist0 genOk sessao11 (some "resumo")).prompt_montado
      = some (montar_prompt_resumo "TEXTO COMPLETO DO DOCUMENTO" "resumo") := by decide

/-- C3 amended: for every question the classifier marks as a summary
request, the code bypasses retrieval entirely (no chunks are fetched from
the vector index) and assembles the summary prompt from the stored full
stored document text. -/
theorem resumo_ignora_recuperacao (dist : String → String → Nat)
    (gen : List Message → Except Unit String) (s : Session) (base : List String)
    (p : String) (hbase : s.base_vetores = some base) (hp : ¬ p = "")
    (hdet : detectar_pedido_resumo p = true) :
    (processar_turno dist gen s (some p)).documentos_relevantes = [] ∧
    (processar_turno dist gen s (some p)).prompt_montado
      = some (montar_prompt_resumo (pyOptStr s.texto_completo) p) := by
  have hc := processar_turno_carac dist gen s base p hbase hp
  rw [hc]
  cases hg : gen (s.historico_chat ++ [Message.HumanMessage (prompt_turno dist s base p)]) <;>
    simp [docs_turno, prompt_turno, hdet]

/-- C3 amended witness: the concrete summary turn over the 11-chunk index. -/
theorem resumo_ignora_recuperacao_witness :
    (processar_turno dist0 genOk sessao11 (some "Me dê um RESUMO")).documentos_relevantes = [] ∧
    (processar_turno dist0 genOk sessao11 (some "Me dê um RESUMO")).prompt_montado
      = some (montar_prompt_resumo (pyOptStr sessao11.texto_completo) "Me dê um RESUMO") :=
  resumo_ignora_recuperacao dist0 genOk sessao11 base11 "Me dê um RESUMO"
    rfl (by decide) (by decide)

/-- C5: for every question the classifier marks as a lookup request, the
turn retrieves via `similarity_search` with fixed `k = 3`: at most 3 chunks
come back, and exactly 3 whenever the index holds at least 3. -/
theorem consulta_pontual_max_tres (dist : String → String → Nat)
    (gen : List Message → Except Unit String) (s : Session) (base : List String)
    (p : String) (hbase : s.base_vetores = some base) (hp : ¬ p = "")
    (hdet : detectar_pedido_resumo p = false) :
    (processar_turno dist gen s (some p)).documentos_relevantes
        = similarity_search dist base p 3 ∧
    (processar_turno dist gen s (some p)).documentos_relevantes.length ≤ 3 ∧
    (3 ≤ base.length →
      (processar_turno dist gen s (some p)).documentos_relevantes.length = 3) := by
  have hc := processar_turno_carac dist gen s base p hbase hp
  have hdocs : (processar_turno dist gen s (some p)).documentos_relevantes
      = similarity_search dist base p 3 := by
    rw [hc]
    cases hg : gen (s.historico_chat ++ [Message.HumanMessage (prompt_turno dist s base p)]) <;>
      simp [docs_turno, hdet]
  have hlen : (similarity_search dist base p 3).length = min 3 base.length := by
    simp [similarity_search]
  refine ⟨hdocs, ?_, ?_⟩
  · rw [hdocs, hlen]; exact Nat.min_le_left _ _
  · intro h3
    rw [hdocs, hlen]
    exact Nat.min_eq_left h3

/-- C5 witness: a concrete lookup turn over the 11-chunk index returns
exactly 3 chunks. -/
theorem consulta_pontual_max_tres_witness :
    (processar_turno dist0 genOk sessao11 (some "Qual o valor total?")).documentos_relevantes
        = similarity_search dist0 base11 "Qual o valor total?" 3 ∧
    (processar_turno dist0 genOk sessao11 (some "Qual o valor total?")).documentos_relevantes.length ≤ 3 ∧
    (3 ≤ base11.length →
      (processar_turno dist0 genOk sessao11 (some "Qual o valor total?")).documentos_relevantes.length = 3) :=
  consulta_pontual_max_tres dist0 genOk sessao11 base11 "Qual o valor total?"
    rfl (by decide) (by decide)

/-- C8: when the work inside `obter_base_vetores_dos_pdfs` raises (document
extraction or embedding/index construction), the assignment on app.py
line 169 is never executed, so the previously built vector base
and previously stored full text are left untouched. -/
theorem ingestao_falha_preserva_base (s : Session) (prompt_sistema : String) :
    (processar_pdfs prompt_sistema (Except.error ()) s).base_vetores = s.base_vetores ∧
    (processar_pdfs prompt_sistema (Except.error ()) s).texto_completo = s.texto_completo := by
  unfold processar_pdfs
  split <;> simp

/-- C10: every "Processar PDFs" run appends exactly one greeting
`AIMessage` to the history (in particular every successful one), so `n`
successful ingestions starting from a fresh session leave a history that is
exactly `n` greeting messages — a history not composed of an optional
`SystemMessage` plus question/answer pairs alone. -/
theorem ingestao_acrescenta_saudacao :
    (∀ (s : Session) (prompt_sistema : String) (resultado : Except Unit String),
      contaSaudacoes (processar_pdfs prompt_sistema resultado s).historico_chat
        = contaSaudacoes s.historico_chat + 1) ∧
    (∀ n : Nat, (ingestoes n).historico_chat
        = List.replicate n (Message.AIMessage saudacao)) := by
  have hstep : ∀ (s : Session) (prompt_sistema : String) (resultado : Except Unit String),
      contaSaudacoes (processar_pdfs prompt_sistema resultado s).historico_chat
        = contaSaudacoes s.historico_chat + 1 := by
    intro s prompt_sistema resultado
    unfold processar_pdfs
    cases resultado <;> split <;>
      simp [contaSaudacoes, List.countP_append, List.countP_cons]
  refine ⟨hstep, ?_⟩
  intro n
  induction n with
  | zero => rfl
  | succ k ih =>
    show (processar_pdfs "" (Except.ok "") (ingestoes k)).historico_chat = _
    unfold processar_pdfs
    simp [ih, List.replicate_succ']

/-- `Char.ofNat` at a valid code point reads back as the same `Nat`. -/
theorem toNat_ofNat_valido {n : Nat} (h : n.isValidChar) : (Char.ofNat n).toNat = n := by
  rw [Char.ofNat, dif_pos h]
  rfl

/-- Lowercasing a character twice is the same as doing it once. -/
theorem pyLowerChar_idem (c : Char) : pyLowerChar (pyLowerChar c) = pyLowerChar c := by
  by_cases h1 : 65 ≤ c.toNat ∧ c.toNat ≤ 90
  · have ht : (Char.ofNat (c.toNat + 32)).toNat = c.toNat + 32 :=
      toNat_ofNat_valido (Or.inl (by omega))
    unfold pyLowerChar
    rw [if_pos h1, ht, if_neg (by omega), if_neg (by omega)]
  · by_cases h2 : 192 ≤ c.toNat ∧ c.toNat ≤ 222 ∧ c.toNat ≠ 215
    · have ht : (Char.ofNat (c.toNat + 32)).toNat = c.toNat + 32 :=
        toNat_ofNat_valido (Or.inl (by omega))
      unfold pyLowerChar
      rw [if_neg h1, if_pos h2, ht, if_neg (by omega), if_neg (by omega)]
    · have hc : pyLowerChar c = c := by
        unfold pyLowerChar
        rw [if_neg h1, if_neg h2]
      rw [hc, hc]

/-- Lowercasing a string twice is the same as doing it once. -/
theorem pyLower_idem (s : String) : pyLower (pyLower s) = pyLower s := by
  unfold pyLower
  apply congrArg
  show List.map pyLowerChar (List.map pyLowerChar s.data) = _
  rw [List.map_map]
  exact List.map_congr_left (fun c _ => pyLowerChar_idem c)

/-- `contemLista` decides list containment as a contiguous sublist. -/
theorem contemLista_iff (sub l : List Char) : contemLista sub l = true ↔ sub <:+: l := by
  induction l with
  | nil => simp [contemLista]
  | cons c rest ih => simp [contemLista, ih, List.infix_cons_iff]

/-- C6: the summary classifier is a pure boolean function of the question
computed by case-insensitive substring match against the fixed keyword set:
`"Me dê um RESUMO"` is classified as a summary request and
`"Qual o valor total?"` is not; a question is classified true exactly when
some keyword occurs inside its lowercased form; and the verdict is
case-insensitive (lowercasing the question first changes nothing). -/
theorem classificador_palavras_chave :
    detectar_pedido_resumo "Me dê um RESUMO" = true ∧
    detectar_pedido_resumo "Qual o valor total?" = false ∧
    (∀ q : String, detectar_pedido_resumo q = true ↔
      ∃ palavra ∈ palavras_chave_resumo, palavra.toList <:+: (pyLower q).toList) ∧
    (∀ q : String, detectar_pedido_resumo (pyLower q) = detectar_pedido_resumo q) := by
  refine ⟨by decide, by decide, ?_, ?_⟩
  · intro q
    simp only [detectar_pedido_resumo, List.any_eq_true, pyIn, contemLista_iff]
  · intro q
    unfold detectar_pedido_resumo
    rw [pyLower_idem]

/-- C6 witness: the general keyword criterion applied at a concrete input. -/
theorem classificador_palavras_chave_witness :
    detectar_pedido_resumo "Poderia RESUMIR o documento?" = true :=
  (classificador_palavras_chave.2.2.1 "Poderia RESUMIR o documento?").mpr
    ⟨"resumir", by decide, (contemLista_iff _ _).mp (by decide)⟩

/-- Appending only non-`SystemMessage`s preserves the "no system message
after the head" invariant. -/
theorem semSistema_append (hist ms : List Message)
    (h : semSistemaNaCauda hist) (hms : ∀ m ∈ ms, isSystemMessage m = false) :
    semSistemaNaCauda (hist ++ ms) := by
  cases hist with
  | nil =>
    intro m hm
    exact hms m (List.mem_of_mem_tail (by simpa using hm))
  | cons a rest =>
    intro m hm
    simp only [List.cons_append, List.tail_cons] at hm
    rcases List.mem_append.mp hm with h1 | h2
    · exact h m (by simpa using h1)
    · exact hms m h2

/-- The history written by one "Processar PDFs" run: optional persona
insertion at index 0, then the greeting appended. -/
theorem processar_pdfs_historico (prompt_sistema : String)
    (resultado : Except Unit String) (s : Session) :
    (processar_pdfs prompt_sistema resultado s).historico_chat =
      (if prompt_sistema ≠ "" ∧ s.historico_chat.any isSystemMessage = false
        then Message.SystemMessage prompt_sistema :: s.historico_chat
        else s.historico_chat) ++ [Message.AIMessage saudacao] := by
  unfold processar_pdfs
  cases resultado <;> split <;> simp_all

/-- The "Processar PDFs" handler preserves the invariant: it inserts a
`SystemMessage` only at index 0 and only when none exists, and otherwise
appends a non-system greeting. -/
theorem processar_pdfs_preserva_sistema (prompt_sistema : String)
    (resultado : Except Unit String) (s : Session)
    (h : semSistemaNaCauda s.historico_chat) :
    semSistemaNaCauda (processar_pdfs prompt_sistema resultado s).historico_chat := by
  have hgreet : ∀ m ∈ [Message.AIMessage saudacao], isSystemMessage m = false := by
    intro m hm
    simp only [List.mem_singleton] at hm
    subst hm
    rfl
  rw [processar_pdfs_historico]
  by_cases hc : prompt_sistema ≠ "" ∧ s.historico_chat.any isSystemMessage = false
  · rw [if_pos hc]
    have hnone : ∀ m ∈ s.historico_chat, isSystemMessage m = false := by
      intro m hm
      cases hb : isSystemMessage m with
      | false => rfl
      | true =>
        exfalso
        have hany : s.historico_chat.any isSystemMessage = true :=
          List.any_eq_true.mpr ⟨m, hm, hb⟩
        simp [hc.2] at hany
    intro m hm
    simp only [List.cons_append, List.tail_cons] at hm
    rcases List.mem_append.mp hm with h1 | h2
    · exact hnone m h1
    · exact hgreet m h2
  · rw [if_neg hc]
    exact semSistema_append _ _ h hgreet

/-- The question handler preserves the invariant: it only ever appends
`HumanMessage`/`AIMessage` entries (or leaves the history unchanged). -/
theorem processar_turno_preserva_sistema (dist : String → String → Nat)
    (gen : List Message → Except Unit String) (s : Session) (pergunta : Option String)
    (h : semSistemaNaCauda s.historico_chat) :
    semSistemaNaCauda (processar_turno dist gen s pergunta).sessao.historico_chat := by
  cases hb : s.base_vetores with
  | none => simpa [processar_turno, hb] using h
  | some base =>
    cases pergunta with
    | none => simpa [processar_turno, hb] using h
    | some p =>
      by_cases hp : p = ""
      · simpa [processar_turno, hb, hp] using h
      · have hc := processar_turno_carac dist gen s base p hb hp
        cases hg : gen (s.historico_chat ++ [Message.HumanMessage (prompt_turno dist s base p)]) with
        | error e =>
          rw [hc, hg]
          refine semSistema_append _ _ h ?_
          intro m hm
          simp only [List.mem_singleton] at hm
          subst hm
          rfl
        | ok resposta =>
          rw [hc, hg]
          refine semSistema_append _ _ h ?_
          intro m hm
          simp only [List.mem_cons, List.mem_singleton, List.not_mem_nil, or_false] at hm
          rcases hm with h1 | h1 <;> subst h1 <;> rfl

/-- In a history with no `SystemMessage` after the head, any position
holding a `SystemMessage` is position 0. -/
theorem sistema_so_na_cabeca (hist : List Message) (h : semSistemaNaCauda hist)
    (i : Nat) (hi : i < hist.length)
    (hs : isSystemMessage (hist.get ⟨i, hi⟩) = true) : i = 0 := by
  cases i with
  | zero => rfl
  | succ j =>
    exfalso
    cases hist with
    | nil => exact absurd hi (by simp)
    | cons a rest =>
      have hj : j < rest.length := by simpa using hi
      have hmem : rest.get ⟨j, hj⟩ ∈ rest := rest.get_mem _ _
      have hfalse := h _ hmem
      have hs' : isSystemMessage (rest.get ⟨j, hj⟩) = true := hs
      rw [hfalse] at hs'
      exact Bool.false_ne_true hs'

/-- Any action sequence preserves the invariant. -/
theorem executarLista_preserva_sistema (dist : String → String → Nat)
    (acoes : List Acao) (s : Session) (h : semSistemaNaCauda s.historico_chat) :
    semSistemaNaCauda (executarLista dist s acoes).historico_chat := by
  induction acoes generalizing s with
  | nil => exact h
  | cons a rest ih =>
    refine ih (executar dist s a) ?_
    cases a with
    | processar p r => exact processar_pdfs_preserva_sistema p r s h
    | turno gen q => exact processar_turno_preserva_sistema dist gen s q h

/-- C7: running ingestion twice with the same non-empty persona text leaves
exactly one `SystemMessage` in the history, sitting at index 0; and after
any sequence of app actions from a fresh session, any `SystemMessage`
present in the history is at index 0. -/
theorem persona_inserida_uma_vez :
    (∀ (p : String) (r₁ r₂ : Except Unit String), p ≠ "" →
      (processar_pdfs p r₂ (processar_pdfs p r₁ sessaoInicial)).historico_chat.countP
          isSystemMessage = 1 ∧
      (processar_pdfs p r₂ (processar_pdfs p r₁ sessaoInicial)).historico_chat.head?
          = some (Message.SystemMessage p)) ∧
    (∀ (dist : String → String → Nat) (acoes : List Acao) (i : Nat)
        (hi : i < (executarLista dist sessaoInicial acoes).historico_chat.length),
      isSystemMessage ((executarLista dist sessaoInicial acoes).historico_chat.get ⟨i, hi⟩) = true
        → i = 0) := by
  constructor
  · intro p r₁ r₂ hp
    have h1 : (processar_pdfs p r₁ sessaoInicial).historico_chat
        = [Message.SystemMessage p, Message.AIMessage saudacao] := by
      rw [processar_pdfs_historico, if_pos ⟨hp, rfl⟩]
      rfl
    rw [processar_pdfs_historico, h1, if_neg (by simp [isSystemMessage])]
    refine ⟨?_, rfl⟩
    simp [List.countP_cons, List.countP_append, isSystemMessage]
  · intro dist acoes i hi hs
    refine sistema_so_na_cabeca _ ?_ i hi hs
    refine executarLista_preserva_sistema dist acoes sessaoInicial ?_
    intro m hm
    simp [sessaoInicial] at hm

/-- C7 witness: a concrete double ingestion with the same persona. -/
theorem persona_inserida_uma_vez_witness :
    (processar_pdfs "Você é um assistente." (Except.ok "")
        (processar_pdfs "Você é um assistente." (Except.ok "") sessaoInicial)).historico_chat.countP
        isSystemMessage = 1 ∧
    (processar_pdfs "Você é um assistente." (Except.ok "")
        (processar_pdfs "Você é um assistente." (Except.ok "") sessaoInicial)).historico_chat.head?
        = some (Message.SystemMessage "Você é um assistente.") :=
  persona_inserida_uma_vez.1 "Você é um assistente." (Except.ok "") (Except.ok "") (by decide)

/-- Python lengths are nonnegative. -/
theorem pyLen_nonneg (s : String) : 0 ≤ pyLen s := by
  unfold pyLen
  exact Int.natCast_nonneg _

/-- A nonempty string has length at least 1. -/
theorem pyLen_pos (c : String) (h : c ≠ "") : 1 ≤ pyLen c := by
  cases c with
  | mk data =>
    cases data with
    | nil => exact absurd rfl h
    | cons x xs =>
      simp only [pyLen, List.length_cons]
      omega

/-- Length distributes over string append. -/
theorem pyLen_append (a b : String) : pyLen (a ++ b) = pyLen a + pyLen b := by
  cases a with
  | mk xs =>
    cases b with
    | mk ys =>
      show ((xs ++ ys).length : Int) = (xs.length : Int) + (ys.length : Int)
      simp [List.length_append]

/-- Stripping never lengthens a string. -/
theorem pyLen_pyStrip_le (s : String) : pyLen (pyStrip s) ≤ pyLen s := by
  unfold pyStrip pyLen
  have h1 : (((s.data.dropWhile pyWhitespace).reverse.dropWhile pyWhitespace).reverse).length
      ≤ s.data.length := by
    rw [List.length_reverse]
    calc ((s.data.dropWhile pyWhitespace).reverse.dropWhile pyWhitespace).length
        ≤ (s.data.dropWhile pyWhitespace).reverse.length :=
          (List.dropWhile_sublist pyWhitespace).length_le
      _ = (s.data.dropWhile pyWhitespace).length := List.length_reverse _
      _ ≤ s.data.length := (List.dropWhile_sublist pyWhitespace).length_le
  exact_mod_cast h1

/-- `totalJuntado` is nonnegative. -/
theorem totalJuntado_nonneg (cur : List String) : 0 ≤ totalJuntado cur := by
  induction cur with
  | nil => simp [totalJuntado]
  | cons c rest ih =>
    cases rest with
    | nil =>
      simpa [totalJuntado] using pyLen_nonneg c
    | cons e r2 =>
      have := pyLen_nonneg c
      simp only [totalJuntado] at ih ⊢
      omega

/-- The running total tracks the length of the newline-joined window. -/
theorem pyLen_pyJoin (cur : List String) : pyLen (pyJoin "\n" cur) = totalJuntado cur := by
  induction cur with
  | nil => rfl
  | cons d rest ih =>
    cases rest with
    | nil => rfl
    | cons e r2 =>
      show pyLen (d ++ "\n" ++ pyJoin "\n" (e :: r2)) = totalJuntado (d :: e :: r2)
      rw [pyLen_append, pyLen_append, ih]
      have hsep : pyLen "\n" = 1 := rfl
      simp only [totalJuntado, hsep]

/-- Appending one split to an empty window. -/
theorem totalJuntado_concat_nil (d : String) : totalJuntado ([] ++ [d]) = pyLen d := rfl

/-- Appending one split to a nonempty window adds its length plus one
separator, matching the `total +=` update of the source. -/
theorem totalJuntado_concat_cons (c : String) (rest : List String) (d : String) :
    totalJuntado ((c :: rest) ++ [d]) = totalJuntado (c :: rest) + pyLen d + 1 := by
  induction rest generalizing c with
  | nil =>
    show totalJuntado [c, d] = totalJuntado [c] + pyLen d + 1
    simp only [totalJuntado]
    omega
  | cons e r2 ih =>
    have ihe := ih e
    simp only [List.cons_append] at ihe ⊢
    simp only [totalJuntado] at ihe ⊢
    omega

/-- Any chunk emitted by `_join_docs` is no longer than the joined window. -/
theorem join_docs_le (cur : List String) (doc : String)
    (h : join_docs cur "\n" = some doc) : pyLen doc ≤ totalJuntado cur := by
  unfold join_docs at h
  by_cases he : pyStrip (pyJoin "\n" cur) = ""
  · simp [he] at h
  · simp only [he, if_false, Option.some.injEq] at h
    subst h
    calc pyLen (pyStrip (pyJoin "\n" cur)) ≤ pyLen (pyJoin "\n" cur) := pyLen_pyStrip_le _
      _ = totalJuntado cur := pyLen_pyJoin cur

/-- Specification of the pop loop under the configuration of the app: it keeps the
invariant `total = totalJuntado current_doc`, keeps entries nonempty, and on
exit either the window is empty or the total is within the overlap budget
and leaves room for the incoming split. -/
theorem poda_spec (dLen : Int) (cur : List String) :
    ∀ total : Int, total = totalJuntado cur → (∀ c ∈ cur, c ≠ "") →
      (poda_sobreposicao 500 200 1 dLen cur total).2
          = totalJuntado (poda_sobreposicao 500 200 1 dLen cur total).1 ∧
      (∀ c ∈ (poda_sobreposicao 500 200 1 dLen cur total).1, c ≠ "") ∧
      ((poda_sobreposicao 500 200 1 dLen cur total).1 = [] ∨
        ((poda_sobreposicao 500 200 1 dLen cur total).2 ≤ 200 ∧
          (poda_sobreposicao 500 200 1 dLen cur total).2 + dLen + 1 ≤ 500)) := by
  induction cur with
  | nil =>
    intro total hinv _
    refine ⟨?_, ?_, Or.inl rfl⟩
    · simpa [poda_sobreposicao] using hinv
    · simp [poda_sobreposicao]
  | cons c rest ih =>
    intro total hinv hne
    unfold poda_sobreposicao
    by_cases hcond : total > 200 ∨ (total + dLen + 1 > 500 ∧ total > 0)
    · rw [if_pos hcond]
      have hinv' : total - (pyLen c + if rest.length > 0 then 1 else 0)
          = totalJuntado rest := by
        cases rest with
        | nil =>
          simp only [totalJuntado] at hinv ⊢
          simp only [List.length_nil]
          omega
        | cons e r2 =>
          simp only [totalJuntado, List.length_cons] at hinv ⊢
          simp only [if_pos (Nat.succ_pos _)]
          omega
      exact ih _ hinv' (fun x hx => hne x (List.mem_cons_of_mem c hx))
    · rw [if_neg hcond]
      have hpos : 1 ≤ totalJuntado (c :: rest) := by
        have hc1 : 1 ≤ pyLen c := pyLen_pos c (hne c (List.mem_cons_self c rest))
        cases rest with
        | nil => simpa [totalJuntado] using hc1
        | cons e r2 =>
          have hnn := totalJuntado_nonneg (e :: r2)
          simp only [totalJuntado]
          omega
      push_neg at hcond
      obtain ⟨hA, hBC⟩ := hcond
      refine ⟨hinv, hne, Or.inr ⟨hA, ?_⟩⟩
      by_cases hB : total + dLen + 1 > 500
      · have hC := hBC hB
        rw [hinv] at hC
        omega
      · omega

/-- `merge_step` when the incoming split still fits: it is just appended. -/
theorem merge_step_sem_estouro (st : EstadoMerge) (d : String)
    (hov : ¬ st.total + pyLen d + (if st.current_doc.length > 0 then (1:Int) else 0) > 500) :
    merge_step 500 200 1 "\n" st d =
      ⟨st.docs, st.current_doc ++ [d],
        st.total + pyLen d +
          (if (st.current_doc ++ [d]).length > 1 then (1:Int) else 0)⟩ := by
  simp only [merge_step]
  rw [if_neg hov]

/-- `merge_step` on overflow with an empty window: nothing to flush, the
split is appended as-is. -/
theorem merge_step_estouro_vazio (st : EstadoMerge) (d : String)
    (hov : st.total + pyLen d + (if st.current_doc.length > 0 then (1:Int) else 0) > 500)
    (hcur : ¬ st.current_doc.length > 0) :
    merge_step 500 200 1 "\n" st d =
      ⟨st.docs, st.current_doc ++ [d],
        st.total + pyLen d +
          (if (st.current_doc ++ [d]).length > 1 then (1:Int) else 0)⟩ := by
  simp only [merge_step]
  rw [if_pos hov, if_neg hcur]

/-- `merge_step` on overflow with a nonempty window: flush the joined
window as a chunk, pop the overlap, then append the split. -/
theorem merge_step_estouro (st : EstadoMerge) (d : String)
    (hov : st.total + pyLen d + (if st.current_doc.length > 0 then (1:Int) else 0) > 500)
    (hcur : st.current_doc.length > 0) :
    merge_step 500 200 1 "\n" st d =
      ⟨(match join_docs st.current_doc "\n" with
          | none => st.docs
          | some doc => st.docs ++ [doc]),
        (poda_sobreposicao 500 200 1 (pyLen d) st.current_doc st.total).1 ++ [d],
        (poda_sobreposicao 500 200 1 (pyLen d) st.current_doc st.total).2 + pyLen d +
          (if ((poda_sobreposicao 500 200 1 (pyLen d) st.current_doc st.total).1 ++ [d]).length > 1
            then (1:Int) else 0)⟩ := by
  simp only [merge_step]
  rw [if_pos hov, if_pos hcur]

/-- The `total +=` update matches the joined length of the window after the
append. -/
theorem totalJuntado_step (cur : List String) (d : String) (t : Int)
    (ht : t = totalJuntado cur) :
    t + pyLen d + (if (cur ++ [d]).length > 1 then (1:Int) else 0)
      = totalJuntado (cur ++ [d]) := by
  subst ht
  cases cur with
  | nil =>
    simp only [List.nil_append, List.length_cons, List.length_nil, totalJuntado]
    norm_num
  | cons c r =>
    rw [totalJuntado_concat_cons]
    have hif : ((c :: r) ++ [d]).length > 1 := by
      simp only [List.length_append, List.length_cons]
      omega
    rw [if_pos hif]

/-- One `_merge_splits` iteration preserves the invariant, provided the
incoming split is nonempty and within the chunk size. -/
theorem merge_step_preserva (st : EstadoMerge) (d : String)
    (hd : d ≠ "") (hdlen : pyLen d ≤ 500) (hinv : InvMerge st) :
    InvMerge (merge_step 500 200 1 "\n" st d) := by
  obtain ⟨h1, h2, h3, h4⟩ := hinv
  by_cases hov : st.total + pyLen d + (if st.current_doc.length > 0 then (1:Int) else 0) > 500
  · by_cases hcur : st.current_doc.length > 0
    · rw [merge_step_estouro st d hov hcur]
      obtain ⟨hp1, hp2, hp3⟩ := poda_spec (pyLen d) st.current_doc st.total h1 h3
      refine ⟨?_, ?_, ?_, ?_⟩
      · exact totalJuntado_step _ d _ hp1
      · show (poda_sobreposicao 500 200 1 (pyLen d) st.current_doc st.total).2 + pyLen d +
            (if ((poda_sobreposicao 500 200 1 (pyLen d) st.current_doc st.total).1 ++ [d]).length > 1
              then (1:Int) else 0) ≤ 500
        cases hc : (poda_sobreposicao 500 200 1 (pyLen d) st.current_doc st.total).1 with
        | nil =>
          have hz : (poda_sobreposicao 500 200 1 (pyLen d) st.current_doc st.total).2 = 0 := by
            rw [hp1, hc]
            rfl
          rw [hz]
          simp only [List.nil_append, List.length_cons, List.length_nil]
          norm_num
          exact hdlen
        | cons c r =>
          have hif : ((c :: r) ++ [d]).length > 1 := by
            simp only [List.length_append, List.length_cons]
            omega
          rw [if_pos hif]
          rcases hp3 with hempty | ⟨_, hbound2⟩
          · rw [hc] at hempty
            simp at hempty
          · exact hbound2
      · intro x hx
        rcases List.mem_append.mp hx with hmem | hxd
        · exact hp2 x hmem
        · rw [List.mem_singleton] at hxd
          subst hxd
          exact hd
      · show ∀ doc ∈ (match join_docs st.current_doc "\n" with
            | none => st.docs
            | some doc => st.docs ++ [doc]), pyLen doc ≤ 500
        cases hjd : join_docs st.current_doc "\n" with
        | none => simpa using h4
        | some doc0 =>
          intro doc hdoc
          simp only [List.mem_append, List.mem_singleton] at hdoc
          rcases hdoc with hmem | rfl
          · exact h4 doc hmem
          · have hle := join_docs_le st.current_doc doc hjd
            rw [← h1] at hle
            exact le_trans hle h2
    · rw [merge_step_estouro_vazio st d hov hcur]
      have hcnil : st.current_doc = [] := by
        cases hl : st.current_doc with
        | nil => rfl
        | cons a b =>
          exfalso
          apply hcur
          rw [hl]
          simp
      have hz : st.total = 0 := by
        rw [h1, hcnil]
        rfl
      refine ⟨totalJuntado_step _ d _ h1, ?_, ?_, h4⟩
      · rw [hcnil, hz]
        simp only [List.nil_append, List.length_cons, List.length_nil]
        norm_num
        exact hdlen
      · intro x hx
        rcases List.mem_append.mp hx with hmem | hxd
        · exact h3 x hmem
        · rw [List.mem_singleton] at hxd
          subst hxd
          exact hd
  · rw [merge_step_sem_estouro st d hov]
    push_neg at hov
    refine ⟨totalJuntado_step _ d _ h1, ?_, ?_, h4⟩
    · have hiff : ((st.current_doc ++ [d]).length > 1) ↔ (st.current_doc.length > 0) := by
        simp only [List.length_append, List.length_cons, List.length_nil]
        omega
      show st.total + pyLen d +
          (if (st.current_doc ++ [d]).length > 1 then (1:Int) else 0) ≤ 500
      rw [if_congr hiff rfl rfl]
      exact hov
    · intro x hx
      rcases List.mem_append.mp hx with hmem | hxd
      · exact h3 x hmem
      · rw [List.mem_singleton] at hxd
        subst hxd
        exact hd

/-- Folding `merge_step` over well-sized splits preserves the invariant. -/
theorem foldl_merge_preserva (splits : List String) :
    ∀ st : EstadoMerge, (∀ p ∈ splits, p ≠ "" ∧ pyLen p ≤ 500) → InvMerge st →
      InvMerge (splits.foldl (merge_step 500 200 1 "\n") st) := by
  induction splits with
  | nil => intro st _ hinv; exact hinv
  | cons d rest ih =>
    intro st hs hinv
    have hd := hs d (List.mem_cons_self d rest)
    exact ih _ (fun p hp => hs p (List.mem_cons_of_mem d hp))
      (merge_step_preserva st d hd.1 hd.2 hinv)

/-- C9 counterexample: a 501-character newline-free input yields a single
chunk of length 501, exceeding the configured maximum chunk size of 500
(`CharacterTextSplitter` keeps an oversized separator-free segment whole). -/
theorem pedaco_excede_limite_contraexemplo :
    ∃ c ∈ split_text (String.mk (List.replicate 501 'a')), 500 < pyLen c := by decide

/-- C9 amended: every chunk respects the configured maximum size of 500
characters provided every newline-separated segment of the input is itself
at most 500 characters; a longer separator-free segment is emitted whole as
a single oversized chunk. -/
theorem pedacos_dentro_do_limite (text : String)
    (h : ∀ p ∈ split_text_with_regex text, pyLen p ≤ 500) :
    ∀ c ∈ split_text text, pyLen c ≤ 500 := by
  have hsplits : ∀ p ∈ split_text_with_regex text, p ≠ "" ∧ pyLen p ≤ 500 := by
    intro p hp
    refine ⟨?_, h p hp⟩
    have := List.mem_filter.mp hp
    exact of_decide_eq_true this.2
  have hinv0 : InvMerge (EstadoMerge.mk [] [] 0) := by
    refine ⟨rfl, by norm_num, ?_, ?_⟩ <;> intro x hx <;> simp at hx
  have hfin := foldl_merge_preserva (split_text_with_regex text)
    (EstadoMerge.mk [] [] 0) hsplits hinv0
  obtain ⟨h1, h2, _, h4⟩ := hfin
  intro c hc
  unfold split_text merge_splits at hc
  cases hjd : join_docs ((split_text_with_regex text).foldl
      (merge_step 500 200 1 "\n") (EstadoMerge.mk [] [] 0)).current_doc "\n" with
  | none =>
    simp only [hjd] at hc
    exact h4 c hc
  | some doc =>
    simp only [hjd] at hc
    rcases List.mem_append.mp hc with hmem | hcd
    · exact h4 c hmem
    · rw [List.mem_singleton] at hcd
      subst hcd
      have hle := join_docs_le _ c hjd
      rw [← h1] at hle
      exact le_trans hle h2

/-- C9 amended witness: a concrete two-line input within the bound. -/
theorem pedacos_dentro_do_limite_witness :
    (∀ p ∈ split_text_with_regex "abc\ndef", pyLen p ≤ 500) ∧
    ∀ c ∈ split_text "abc\ndef", pyLen c ≤ 500 :=
  ⟨by decide, pedacos_dentro_do_limite "abc\ndef" (by decide)⟩
